import Mathlib

/-!
# Verification of `crates/nu-command/src/formats/to/toml.rs`

A shallow embedding of the `to toml` conversion pipeline:

* `helper`            — recursive `nu_protocol::Value` → `toml_edit::Value` classifier
                        (lines 45–100 of the source);
* `toml_list`         — list conversion loop (lines 102–110);
* `toml_into_pipeline_data` — rendering/delivery of the final document value
                        (lines 112–128);
* `value_to_toml_value` — the top-level shape gate and string-reparse branch
                        (lines 130–159);
* `to_toml`           — overall command body with the single-table unwrap match
                        (lines 161–176).

Rust `i64` payloads are carried as `Int` (they are only moved, never computed
with, so no wrap-around point arises except the `usize as i64` cast, modelled
explicitly).  `f64` payloads are carried opaquely as a bit pattern, since the
code only moves them.  The `chrono` date payload is carried as its canonical
rendering, the only observation the code makes of it (`val.to_string()`).
-/

set_option autoImplicit false

namespace ToToml

/-- `nu_protocol::Span` (start/end byte offsets). -/
structure Span where
  start : Nat
  stop : Nat
deriving DecidableEq, Repr

/-- `Span::unknown()` is the `0..0` span. -/
def Span.unknown : Span := ⟨0, 0⟩

/-- Opaque carrier for a Rust `f64` payload: the converter only moves floats,
never inspects them, so the bit pattern is all that is needed. -/
structure F64 where
  bits : Nat
deriving DecidableEq, Repr

/-- The `ShellError` variants this file constructs, plus `other`, which stands
for the remaining variants of the (external) `nu_protocol::ShellError` enum;
a wrapped `Value::Error` may carry any of them, so the type must stay open
enough to hold an arbitrary distinguishable payload. -/
inductive ShellError where
  | unsupportedInput (msg : String) (span : Span)
  | cantConvert (format : String) (ty : String) (span : Span)
  | other (code : Nat)
deriving DecidableEq, Repr

/-- `nu_protocol::ast::PathMember`. -/
inductive PathMember where
  | string (val : String) (span : Span)
  | int (val : Nat) (span : Span)
deriving DecidableEq, Repr

/-- `nu_protocol::Value`, the closed dynamic-value union, with exactly the
variants the source matches on.  `Binary` bytes are `Fin 256` (Rust `u8`).
`Block` carries its `BlockId`, `CustomValue` and `Range` carry their payloads
opaquely as a tag (the code ignores both payloads).  `Error` has no span in
the Rust enum. -/
inductive Value where
  | bool (val : Bool) (span : Span)
  | int (val : Int) (span : Span)
  | filesize (val : Int) (span : Span)
  | duration (val : Int) (span : Span)
  | date (rendered : String) (span : Span)
  | range (val : Nat) (span : Span)
  | float (val : F64) (span : Span)
  | string (val : String) (span : Span)
  | record (cols : List String) (vals : List Value) (span : Span)
  | list (vals : List Value) (span : Span)
  | block (val : Nat) (span : Span)
  | nothing (span : Span)
  | error (error : ShellError)
  | binary (val : List (Fin 256)) (span : Span)
  | cellPath (members : List PathMember) (span : Span)
  | custom (val : Nat) (span : Span)
deriving Repr

/-- `toml_edit::Value` as used by the source: the `Formatted` decoration is
dropped (pure formatting metadata).  The source's unwrap branch pattern-matches
a `Table` variant distinct from `InlineTable`, so both are present; `datetime`
exists in the library but is never built or matched by this file. -/
inductive TomlValue where
  | boolean (val : Bool)
  | integer (val : Int)
  | float (val : F64)
  | string (val : String)
  | datetime (val : String)
  | array (vals : List TomlValue)
  | inlineTable (entries : List (String × TomlValue))
  | table (entries : List (String × TomlValue))
deriving Repr

/-- `toml_edit::Value::as_str`: `Some` exactly for the `String` variant. -/
def TomlValue.as_str : TomlValue → Option String
  | .string s => some s
  | _ => none

/-- `usize as i64`: reinterpret the low 64 bits as two's-complement. -/
def usizeToI64 (n : Nat) : Int :=
  let m : Nat := n % 2 ^ 64
  if m < 2 ^ 63 then (m : Int) else (m : Int) - 2 ^ 64

/-- `toml_edit::InlineTable::insert` (indexmap semantics): replace in place
when the key is present, append otherwise. -/
def insertKV (m : List (String × TomlValue)) (k : String) (t : TomlValue) :
    List (String × TomlValue) :=
  if m.any (fun p => p.1 == k) then
    m.map (fun p => if p.1 == k then (k, t) else p)
  else
    m ++ [(k, t)]

/-- The `CellPath` arm's per-member conversion (source lines 86–93); every
match arm is `Ok`, so the collected `Result` never fails and the map is pure. -/
def cellPathMember : PathMember → TomlValue
  | .string s _ => .string s
  | .int n _ => .integer (usizeToI64 n)

mutual

/-- `helper` (source lines 45–100): recursive `Value` → `toml_edit::Value`
conversion.  The record arm's `for (k, v) in cols.iter().zip(vals.iter())`
loop is split out as `toml_record`. -/
def helper : Value → Except ShellError TomlValue
  | .bool b _ => .ok (.boolean b)
  | .int n _ => .ok (.integer n)
  | .filesize n _ => .ok (.integer n)
  | .duration n _ => .ok (.string (toString n))
  | .date r _ => .ok (.string r)
  | .range _ _ => .ok (.string "<Range>")
  | .float f _ => .ok (.float f)
  | .string s _ => .ok (.string s)
  | .record cols vals _ => do
      let m ← toml_record cols vals []
      .ok (.inlineTable m)
  | .list vals _ => do
      let ts ← toml_list vals
      .ok (.array ts)
  | .block _ _ => .ok (.string "<Block>")
  | .nothing _ => .ok (.string "<Nothing>")
  | .error e => .error e
  | .binary bs _ => .ok (.array (bs.map fun b => .integer ((b.val : Int))))
  | .cellPath members _ => .ok (.array (members.map cellPathMember))
  | .custom _ _ => .ok (.string "<Custom Value>")
termination_by v => sizeOf v

/-- The record arm's loop: `m.insert(k, helper(v)?)` over `cols.zip(vals)`,
threading the growing inline table `m`. -/
def toml_record (cols : List String) (vals : List Value)
    (m : List (String × TomlValue)) :
    Except ShellError (List (String × TomlValue)) :=
  match cols, vals with
  | k :: ks, v :: vs => do
      let t ← helper v
      toml_record ks vs (insertKV m k t)
  | _, _ => .ok m
termination_by sizeOf vals

/-- `toml_list` (source lines 102–110): `out.push(helper(value)?)` in order,
first failure aborts. -/
def toml_list : List Value → Except ShellError (List TomlValue)
  | [] => .ok []
  | v :: rest => do
      let t ← helper v
      let ts ← toml_list rest
      .ok (t :: ts)
termination_by vs => sizeOf vs

end

/-- Outcome of a Rust function that can return `Ok`, return `Err`, or panic;
`crash` models a panic (here: the `.unwrap()` on source line 150) and carries
the `ShellError` the panicking `Result` held. -/
inductive Conv (α : Type) where
  | ok (val : α)
  | err (e : ShellError)
  | crash (e : ShellError)
deriving Repr

/-- Lift a normally-returning `Result` into `Conv` (the `?` operator). -/
def ofExcept {α : Type} : Except ShellError α → Conv α
  | .ok a => .ok a
  | .error e => .err e

/-- Modelled from the spec: "a ShapeError naming the offending value's runtime
type".  `nu_protocol::Value::get_type` and the `Debug` rendering of `Type`
(used by the `format!("{:?} is not a valid top-level TOML", ...)` on source
line 155) are not under `src/`, so a per-variant name stands in for them. -/
def typeDebug : Value → String
  | .bool .. => "Bool"
  | .int .. => "Int"
  | .filesize .. => "Filesize"
  | .duration .. => "Duration"
  | .date .. => "Date"
  | .range .. => "Range"
  | .float .. => "Float"
  | .string .. => "String"
  | .record .. => "Record"
  | .list .. => "List"
  | .block .. => "Block"
  | .nothing .. => "Nothing"
  | .error _ => "Error"
  | .binary .. => "Binary"
  | .cellPath .. => "CellPath"
  | .custom .. => "CustomValue"

/-- Modelled from the spec: the `Display` rendering of the value's runtime
type, `value.get_type().to_string()` (source lines 124 and 169–172);
`nu_protocol::Type` is not under `src/`, so a per-variant name stands in. -/
def typeName : Value → String
  | .bool .. => "bool"
  | .int .. => "int"
  | .filesize .. => "filesize"
  | .duration .. => "duration"
  | .date .. => "date"
  | .range .. => "range"
  | .float .. => "float"
  | .string .. => "string"
  | .record .. => "record"
  | .list .. => "list"
  | .block .. => "block"
  | .nothing .. => "nothing"
  | .error _ => "error"
  | .binary .. => "binary"
  | .cellPath .. => "cell path"
  | .custom .. => "custom"

/-- Modelled from the spec: the "source location" of a value,
`v.span().unwrap_or_else(|_| Span::unknown())` (source line 156);
`nu_protocol::Value::span` is not under `src/`.  Every variant carries its
span field; `Error` has none, so the unknown span is used. -/
def Value.spanOf : Value → Span
  | .bool _ sp => sp
  | .int _ sp => sp
  | .filesize _ sp => sp
  | .duration _ sp => sp
  | .date _ sp => sp
  | .range _ sp => sp
  | .float _ sp => sp
  | .string _ sp => sp
  | .record _ _ sp => sp
  | .list _ sp => sp
  | .block _ sp => sp
  | .nothing sp => sp
  | .error _ => Span.unknown
  | .binary _ sp => sp
  | .cellPath _ sp => sp
  | .custom _ sp => sp

/-- One character of Rust's `{:?}` (Debug) rendering of a string: quote and
backslash are escaped, the common control characters use their short escapes.
(Other control and non-ASCII characters are passed through; the messages in
this file never contain them.) -/
def rustDebugChar (c : Char) : String :=
  if c = '"' then "\\\""
  else if c = '\\' then "\\\\"
  else if c = '\n' then "\\n"
  else if c = '\t' then "\\t"
  else if c = '\r' then "\\r"
  else c.toString

/-- Rust's `{:?}` (Debug) rendering of a `String`: the escaped contents in
double quotes (used by the message on source line 146). -/
def rustDebugStr (s : String) : String :=
  "\"" ++ String.join (s.toList.map rustDebugChar) ++ "\""

/-- `toml_into_pipeline_data` (source lines 112–128).  `PipelineData` is a
single `Value` here (`into_pipeline_data` wraps one value); both match arms
return `Ok`, the `CantConvert` failure travels inside the success value. -/
def toml_into_pipeline_data (tomlValue : TomlValue) (valueTypeName : String)
    (span : Span) : Except ShellError Value :=
  match tomlValue.as_str with
  | some tomlString => .ok (.string tomlString span)
  | none => .ok (.error (.cantConvert "TOML" valueTypeName span))

/-- `value_to_toml_value` (source lines 130–159).  `parse` stands for the
external `toml_edit::de::from_str::<String>` call on line 143 — the
deserialization target is Rust `String`, inferred from the surrounding
`toml_edit::Value::String(Formatted::new(str))`.  Its `Result` is
`map_err`-ed and then **`unwrap`-ed** (line 150), so a parse failure panics
(`Conv.crash`) instead of returning the constructed error. -/
def value_to_toml_value (parse : String → Option String) (v : Value) :
    Conv TomlValue :=
  match v with
  | .record _ _ _ => ofExcept (helper v)
  | .list vals span =>
    match vals with
    | .record _ _ _ :: _ => ofExcept (helper v)
    | _ => .err (.unsupportedInput
        "Expected a table with TOML-compatible structure from pipeline" span)
  | .string s span =>
    match parse s with
    | some str => .ok (.string str)
    | none => .crash (.unsupportedInput
        (rustDebugStr s ++ " unable to de-serialize string to TOML") span)
  | _ => .err (.unsupportedInput
      (typeDebug v ++ " is not a valid top-level TOML") v.spanOf)

/-- `to_toml` (source lines 161–176), taking the already-collapsed input value
(`input.into_value(span)` is the external pipeline collapse).  The unwrap
match looks for a one-element array whose element is `toml_edit::Value::Table`
— note `Table`, not `InlineTable`. -/
def to_toml (parse : String → Option String) (value : Value) (span : Span) :
    Conv Value :=
  match value_to_toml_value parse value with
  | .err e => .err e
  | .crash e => .crash e
  | .ok tomlValue =>
    match tomlValue with
    | .array vec =>
      match vec with
      | [.table t] =>
          ofExcept (toml_into_pipeline_data (.table t) (typeName value) span)
      | _ => ofExcept (toml_into_pipeline_data tomlValue (typeName value) span)
    | _ => ofExcept (toml_into_pipeline_data tomlValue (typeName value) span)

/-! ## Specification-side definitions -/

/-- The root shapes the top-level gate lets through, as the code implements
it: a record, a list whose *first* element is a record, or a string. -/
def rootGateB : Value → Bool
  | .record _ _ _ => true
  | .list (.record _ _ _ :: _) _ => true
  | .string _ _ => true
  | _ => false

/-- The message of the gate's shape error for a rejected root. -/
def gateFailMsg : Value → String
  | .list _ _ => "Expected a table with TOML-compatible structure from pipeline"
  | v => typeDebug v ++ " is not a valid top-level TOML"

/-- The span of the gate's shape error for a rejected root. -/
def gateFailSpan : Value → Span
  | .list _ sp => sp
  | v => v.spanOf

mutual

/-- Specification-side: the first `Error`-variant node of a value tree in
document order — depth-first, record fields and list elements in original
order, record fields visited through `cols.zip(vals)` exactly as the code
walks them.  Used to compare `helper` against the spec's fail-fast,
earliest-error-wins contract. -/
def specFirstError : Value → Option ShellError
  | .error e => some e
  | .record cols vals _ => firstErrorFields cols vals
  | .list vals _ => firstErrorList vals
  | _ => none
termination_by v => sizeOf v

/-- First error among zipped record fields, in order. -/
def firstErrorFields : List String → List Value → Option ShellError
  | _ :: ks, v :: vs =>
    match specFirstError v with
    | some e => some e
    | none => firstErrorFields ks vs
  | _, _ => none
termination_by _ vals => sizeOf vals

/-- First error among list elements, in order. -/
def firstErrorList : List Value → Option ShellError
  | [] => none
  | v :: vs =>
    match specFirstError v with
    | some e => some e
    | none => firstErrorList vs
termination_by vs => sizeOf vs

end

/-- A parser that rejects every string (stand-in for the external
deserializer in closed statements whose input contains no root string). -/
def pNone : String → Option String := fun _ => none

/-- A concrete span for closed statements. -/
def sp0 : Span := ⟨1, 2⟩

/-! ## Helper lemmas -/

theorem insertKV_of_fresh (m : List (String × TomlValue)) (k : String)
    (t : TomlValue) (h : ∀ p ∈ m, p.1 ≠ k) :
    insertKV m k t = m ++ [(k, t)] := by
  have hany : m.any (fun p => p.1 == k) = false := by
    simp only [List.any_eq_false]
    intro p hp
    simpa using h p hp
  simp [insertKV, hany]

/-- The record loop is element-wise classification in input order: it equals
`mapM helper` over the field values, zipped back with the keys, appended to
the accumulator — provided the keys are distinct and fresh for the
accumulator. -/
theorem toml_record_eq_mapM (cols : List String) :
    ∀ (vals : List Value) (m : List (String × TomlValue)),
      cols.Nodup → cols.length = vals.length →
      (∀ k ∈ cols, ∀ p ∈ m, p.1 ≠ k) →
      toml_record cols vals m =
        match vals.mapM helper with
        | .ok ts => .ok (m ++ cols.zip ts)
        | .error e => .error e := by
  induction cols with
  | nil =>
    intro vals m _ hlen _
    cases vals with
    | nil => rw [List.mapM_nil]; simp [toml_record, pure, Except.pure]
    | cons v vs => simp at hlen
  | cons k ks ih =>
    intro vals m hnd hlen hfresh
    cases vals with
    | nil => simp at hlen
    | cons v vs =>
      have hk : ∀ p ∈ m, p.1 ≠ k := hfresh k (by simp)
      rw [List.mapM_cons]
      cases hv : helper v with
      | error e => simp [toml_record, hv, Bind.bind, Except.bind]
      | ok t =>
        simp only [toml_record, hv, Bind.bind, Except.bind]
        rw [insertKV_of_fresh m k t hk]
        have hnd' : ks.Nodup := (List.nodup_cons.mp hnd).2
        have hkks : k ∉ ks := (List.nodup_cons.mp hnd).1
        have hfresh' : ∀ kk ∈ ks, ∀ p ∈ m ++ [(k, t)], p.1 ≠ kk := by
          intro kk hkk p hp
          rcases List.mem_append.mp hp with hm | hone
          · exact hfresh kk (by simp [hkk]) p hm
          · have hpk : p = (k, t) := by simpa using hone
            subst hpk
            intro hEq
            have hk2 : k = kk := hEq
            exact hkks (hk2.symm ▸ hkk)
        rw [ih vs (m ++ [(k, t)]) hnd' (by simpa using hlen) hfresh']
        cases hvs : vs.mapM helper with
        | error e => simp [hvs]
        | ok ts => simp [hvs, pure, Except.pure]

/-- Fail-fast soundness and completeness of the recursive conversion against
the document-order first error, by strong induction on the size of the
input. -/
theorem conv_firstError (n : Nat) :
    (∀ v : Value, sizeOf v < n →
        (∀ e, specFirstError v = some e → helper v = .error e) ∧
        (specFirstError v = none → ∃ t, helper v = .ok t))
  ∧ (∀ vs : List Value, sizeOf vs < n →
        (∀ e, firstErrorList vs = some e → toml_list vs = .error e) ∧
        (firstErrorList vs = none → ∃ ts, toml_list vs = .ok ts))
  ∧ (∀ (ks : List String) (vs : List Value) (m : List (String × TomlValue)),
        sizeOf vs < n →
        (∀ e, firstErrorFields ks vs = some e → toml_record ks vs m = .error e) ∧
        (firstErrorFields ks vs = none → ∃ mm, toml_record ks vs m = .ok mm)) := by
  induction n with
  | zero =>
    refine ⟨?_, ?_, ?_⟩
    · intro v hv; omega
    · intro vs hvs; omega
    · intro ks vs m hvs; omega
  | succ n ih =>
    obtain ⟨ihV, ihL, ihF⟩ := ih
    refine ⟨?_, ?_, ?_⟩
    · intro v hv
      cases v with
      | record cols vals sp =>
        have hsz : sizeOf vals < n := by simp at hv; omega
        constructor
        · intro e he
          simp only [specFirstError] at he
          have h := (ihF cols vals [] hsz).1 e he
          simp [helper, h, Bind.bind, Except.bind]
        · intro he
          simp only [specFirstError] at he
          obtain ⟨mm, h⟩ := (ihF cols vals [] hsz).2 he
          exact ⟨.inlineTable mm, by simp [helper, h, Bind.bind, Except.bind]⟩
      | list vals sp =>
        have hsz : sizeOf vals < n := by simp at hv; omega
        constructor
        · intro e he
          simp only [specFirstError] at he
          have h := (ihL vals hsz).1 e he
          simp [helper, h, Bind.bind, Except.bind]
        · intro he
          simp only [specFirstError] at he
          obtain ⟨ts, h⟩ := (ihL vals hsz).2 he
          exact ⟨.array ts, by simp [helper, h, Bind.bind, Except.bind]⟩
      | error e => simp [specFirstError, helper]
      | bool b sp => simp [specFirstError, helper]
      | int k sp => simp [specFirstError, helper]
      | filesize k sp => simp [specFirstError, helper]
      | duration k sp => simp [specFirstError, helper]
      | date r sp => simp [specFirstError, helper]
      | range r sp => simp [specFirstError, helper]
      | float f sp => simp [specFirstError, helper]
      | string s sp => simp [specFirstError, helper]
      | block b sp => simp [specFirstError, helper]
      | nothing sp => simp [specFirstError, helper]
      | binary bs sp => simp [specFirstError, helper]
      | cellPath ms sp => simp [specFirstError, helper]
      | custom c sp => simp [specFirstError, helper]
    · intro vs hvs
      cases vs with
      | nil => simp [firstErrorList, toml_list]
      | cons v rest =>
        have hv : sizeOf v < n := by simp at hvs; omega
        have hrest : sizeOf rest < n := by simp at hvs; omega
        constructor
        · intro e he
          simp only [firstErrorList] at he
          cases hfe : specFirstError v with
          | some eh =>
            rw [hfe] at he
            simp only [Option.some.injEq] at he
            subst he
            have h := (ihV v hv).1 eh hfe
            simp [toml_list, h, Bind.bind, Except.bind]
          | none =>
            rw [hfe] at he
            simp only at he
            obtain ⟨t, hok⟩ := (ihV v hv).2 hfe
            have h := (ihL rest hrest).1 e he
            simp [toml_list, hok, h, Bind.bind, Except.bind]
        · intro he
          simp only [firstErrorList] at he
          cases hfe : specFirstError v with
          | some eh => rw [hfe] at he; simp at he
          | none =>
            rw [hfe] at he
            simp only at he
            obtain ⟨t, hok⟩ := (ihV v hv).2 hfe
            obtain ⟨ts, hts⟩ := (ihL rest hrest).2 he
            exact ⟨t :: ts, by simp [toml_list, hok, hts, Bind.bind, Except.bind]⟩
    · intro ks vs m hvs
      cases ks with
      | nil =>
        constructor
        · intro e he; simp [firstErrorFields] at he
        · intro _; exact ⟨m, by simp [toml_record]⟩
      | cons k kt =>
        cases vs with
        | nil =>
          constructor
          · intro e he; simp [firstErrorFields] at he
          · intro _; exact ⟨m, by simp [toml_record]⟩
        | cons v rest =>
          have hv : sizeOf v < n := by simp at hvs; omega
          have hrest : sizeOf rest < n := by simp at hvs; omega
          constructor
          · intro e he
            simp only [firstErrorFields] at he
            cases hfe : specFirstError v with
            | some eh =>
              rw [hfe] at he
              simp only [Option.some.injEq] at he
              subst he
              have h := (ihV v hv).1 eh hfe
              simp [toml_record, h, Bind.bind, Except.bind]
            | none =>
              rw [hfe] at he
              simp only at he
              obtain ⟨t, hok⟩ := (ihV v hv).2 hfe
              have h := (ihF kt rest (insertKV m k t) hrest).1 e he
              simp [toml_record, hok, h, Bind.bind, Except.bind]
          · intro he
            simp only [firstErrorFields] at he
            cases hfe : specFirstError v with
            | some eh => rw [hfe] at he; simp at he
            | none =>
              rw [hfe] at he
              simp only at he
              obtain ⟨t, hok⟩ := (ihV v hv).2 hfe
              obtain ⟨mm, hmm⟩ := (ihF kt rest (insertKV m k t) hrest).2 he
              exact ⟨mm, by simp [toml_record, hok, hmm, Bind.bind, Except.bind]⟩

/-! ## Claims -/

/-- C1 (counterexample): the claim says a root List containing at least one
non-Record element fails immediately with a ShapeError before any conversion
work.  On the code, a list whose *first* element is a record passes the gate
even when a later element is not a record: `[{a:1}, 2]` converts successfully
(and all elements are converted). -/
theorem c1_counterexample :
    value_to_toml_value pNone
        (.list [.record ["a"] [.int 1 sp0] sp0, .int 2 sp0] sp0) =
      .ok (.array [.inlineTable [("a", .integer 1)], .integer 2]) := by
  simp [value_to_toml_value, ofExcept, helper, toml_list, toml_record, insertKV,
    Bind.bind, Except.bind]

/-- C1 (amended): the gate passes a root that is a Record, a non-empty List
whose *first* element is a Record, or a String; every other root fails
immediately with the shape `UnsupportedInput` error; in particular a bare
integer `42` and the list `[1,2,3]` are rejected. -/
theorem c1_amended_gate (p : String → Option String) (sp : Span) :
    value_to_toml_value p (.int 42 sp) =
      .err (.unsupportedInput "Int is not a valid top-level TOML" sp)
  ∧ value_to_toml_value p (.list [.int 1 sp, .int 2 sp, .int 3 sp] sp) =
      .err (.unsupportedInput
        "Expected a table with TOML-compatible structure from pipeline" sp)
  ∧ (∀ v : Value, rootGateB v = false →
       value_to_toml_value p v =
         .err (.unsupportedInput (gateFailMsg v) (gateFailSpan v)))
  ∧ (∀ (cols : List String) (vals rest : List Value) (spr spl : Span),
       value_to_toml_value p (.list (.record cols vals spr :: rest) spl) =
         ofExcept (helper (.list (.record cols vals spr :: rest) spl)))
  ∧ (∀ (cols : List String) (vals : List Value) (spr : Span),
       value_to_toml_value p (.record cols vals spr) =
         ofExcept (helper (.record cols vals spr))) := by
  refine ⟨?_, ?_, ?_, ?_, ?_⟩
  · simp [value_to_toml_value, typeDebug, Value.spanOf]
  · simp [value_to_toml_value]
  · intro v h
    cases v with
    | record cols vals spr => simp [rootGateB] at h
    | string s sps => simp [rootGateB] at h
    | list vals spl =>
      cases vals with
      | nil => simp [value_to_toml_value, gateFailMsg, gateFailSpan]
      | cons hd tl =>
        cases hd
        case record => simp [rootGateB] at h
        all_goals simp [value_to_toml_value, gateFailMsg, gateFailSpan]
    | bool b sp2 => simp [value_to_toml_value, gateFailMsg, gateFailSpan, typeDebug, Value.spanOf]
    | int n sp2 => simp [value_to_toml_value, gateFailMsg, gateFailSpan, typeDebug, Value.spanOf]
    | filesize n sp2 => simp [value_to_toml_value, gateFailMsg, gateFailSpan, typeDebug, Value.spanOf]
    | duration n sp2 => simp [value_to_toml_value, gateFailMsg, gateFailSpan, typeDebug, Value.spanOf]
    | date r sp2 => simp [value_to_toml_value, gateFailMsg, gateFailSpan, typeDebug, Value.spanOf]
    | range r sp2 => simp [value_to_toml_value, gateFailMsg, gateFailSpan, typeDebug, Value.spanOf]
    | float f sp2 => simp [value_to_toml_value, gateFailMsg, gateFailSpan, typeDebug, Value.spanOf]
    | block b sp2 => simp [value_to_toml_value, gateFailMsg, gateFailSpan, typeDebug, Value.spanOf]
    | nothing sp2 => simp [value_to_toml_value, gateFailMsg, gateFailSpan, typeDebug, Value.spanOf]
    | error e => simp [value_to_toml_value, gateFailMsg, gateFailSpan, typeDebug, Value.spanOf]
    | binary bs sp2 => simp [value_to_toml_value, gateFailMsg, gateFailSpan, typeDebug, Value.spanOf]
    | cellPath ms sp2 => simp [value_to_toml_value, gateFailMsg, gateFailSpan, typeDebug, Value.spanOf]
    | custom c sp2 => simp [value_to_toml_value, gateFailMsg, gateFailSpan, typeDebug, Value.spanOf]
  · intro cols vals rest spr spl
    simp [value_to_toml_value]
  · intro cols vals spr
    simp [value_to_toml_value]

/-- C1 (witness): the amended gate theorem applied to the concrete rejected
root `true`. -/
theorem c1_amended_gate_witness :
    value_to_toml_value pNone (.bool true Span.unknown) =
      .err (.unsupportedInput (gateFailMsg (.bool true Span.unknown))
        (gateFailSpan (.bool true Span.unknown))) :=
  (c1_amended_gate pNone Span.unknown).2.2.1 (.bool true Span.unknown) rfl

/-- C2 (code bug, evaluated): the single-table unwrap branch matches
`toml_edit::Value::Table`, but record conversion produces `InlineTable`, so
the branch never fires; `as_str` then has no rendering for either result, so
`convert([{a:1}])` and `convert({a:1})` both deliver embedded `CantConvert`
errors — with different type names, hence not byte-identical — instead of
identical TOML text. -/
theorem c2_unwrap_never_fires :
    to_toml pNone (.list [.record ["a"] [.int 1 sp0] sp0] sp0) sp0 =
      .ok (.error (.cantConvert "TOML" "list" sp0))
  ∧ to_toml pNone (.record ["a"] [.int 1 sp0] sp0) sp0 =
      .ok (.error (.cantConvert "TOML" "record" sp0))
  ∧ value_to_toml_value pNone (.list [.record ["a"] [.int 1 sp0] sp0] sp0) =
      .ok (.array [.inlineTable [("a", .integer 1)]])
  ∧ to_toml pNone (.list [.record ["a"] [.int 1 sp0] sp0] sp0) sp0 ≠
      to_toml pNone (.record ["a"] [.int 1 sp0] sp0) sp0 := by
  refine ⟨?_, ?_, ?_, ?_⟩ <;>
    simp [to_toml, value_to_toml_value, ofExcept, helper, toml_list, toml_record,
      insertKV, toml_into_pipeline_data, TomlValue.as_str, typeName,
      Bind.bind, Except.bind]

/-- C3 (code bug, evaluated): when the external deserialization of a root
String fails, `value_to_toml_value` panics — the constructed
`UnsupportedInput` error is fed to `.unwrap()` (source line 150) — instead of
returning it through the `Err` channel as the claim (and the repo's own
`expect_err` test) requires. -/
theorem c3_parse_failure_crashes (p : String → Option String) (s : String)
    (sp : Span) (h : p s = none) :
    value_to_toml_value p (.string s sp) =
      .crash (.unsupportedInput
        (rustDebugStr s ++ " unable to de-serialize string to TOML") sp) := by
  simp [value_to_toml_value, h]

/-- C3 (witness): the crash theorem at the concrete input `"not valid"` with
an always-failing parser. -/
theorem c3_parse_failure_crashes_witness :
    value_to_toml_value pNone (.string "not valid" Span.unknown) =
      .crash (.unsupportedInput
        (rustDebugStr "not valid" ++ " unable to de-serialize string to TOML")
        Span.unknown) :=
  c3_parse_failure_crashes pNone "not valid" Span.unknown rfl

/-- C4 (counterexample): an `Error`-variant value at the *root* does not come
back unmodified: the top-level gate's catch-all arm replaces it with its own
shape `UnsupportedInput` error. -/
theorem c4_counterexample :
    value_to_toml_value pNone (.error (.other 7)) =
      .err (.unsupportedInput "Error is not a valid top-level TOML" Span.unknown)
  ∧ value_to_toml_value pNone (.error (.other 7)) ≠ .err (.other 7) := by
  constructor
  · simp [value_to_toml_value, typeDebug, Value.spanOf]
  · simp [value_to_toml_value, typeDebug, Value.spanOf]

/-- C4 (amended): during recursive conversion (inside a root that passes the
gate) the first `Error`-variant value in document order — fields and elements
in original input order, depth-first — aborts the whole conversion and is
returned unmodified; but an `Error` at the root itself is rejected by the
top-level gate with a shape error instead of being re-surfaced. -/
theorem c4_amended_first_error :
    (∀ (v : Value) (e : ShellError),
       specFirstError v = some e → helper v = .error e)
  ∧ (∀ (p : String → Option String) (e : ShellError),
       value_to_toml_value p (.error e) =
         .err (.unsupportedInput "Error is not a valid top-level TOML"
           Span.unknown)) := by
  constructor
  · intro v e h
    have hv := ((conv_firstError (sizeOf v + 1)).1 v (by omega)).1 e h
    exact hv
  · intro p e
    simp [value_to_toml_value, typeDebug, Value.spanOf]

/-- C4 (witness): the amended theorem applied to a record whose second field
holds the first (and only) wrapped error. -/
theorem c4_amended_first_error_witness :
    helper (.record ["a", "b"] [.int 1 Span.unknown, .error (.other 3)]
        Span.unknown) =
      .error (.other 3) :=
  c4_amended_first_error.1 _ _
    (by simp [specFirstError, firstErrorFields])

/-- C5 (code bug, evaluated): even when the external deserialization of a
root String succeeds, the result is re-wrapped as a TOML *String* scalar
(`toml_edit::Value::String(Formatted::new(str))`, with the deserialization
target inferred as Rust `String`), never the parsed document table; so the
output cannot match the conversion of the corresponding record, which yields
an `InlineTable`. -/
theorem c5_string_reparse_not_document (p : String → Option String)
    (s t : String) (sp : Span) (h : p s = some t) :
    value_to_toml_value p (.string s sp) = .ok (.string t)
  ∧ helper (.record ["title"] [.string "x" sp] sp) =
      .ok (.inlineTable [("title", .string "x")])
  ∧ (∀ entries : List (String × TomlValue),
       TomlValue.string t ≠ .inlineTable entries) := by
  refine ⟨?_, ?_, ?_⟩
  · simp [value_to_toml_value, h]
  · simp [helper, toml_record, insertKV, Bind.bind, Except.bind]
  · intro entries hEq
    exact TomlValue.noConfusion hEq

/-- C5 (witness): the theorem at the concrete input `"title = \"x\""` with a
parser that succeeds with `"T"`. -/
theorem c5_string_reparse_not_document_witness :
    value_to_toml_value (fun _ => some "T") (.string "title = \"x\"" Span.unknown)
        = .ok (.string "T")
  ∧ helper (.record ["title"] [.string "x" Span.unknown] Span.unknown) =
      .ok (.inlineTable [("title", .string "x")])
  ∧ (∀ entries : List (String × TomlValue),
       TomlValue.string "T" ≠ .inlineTable entries) :=
  c5_string_reparse_not_document (fun _ => some "T") "title = \"x\"" "T"
    Span.unknown rfl

/-- C6: a Record whose keys are distinct (records carry unique keys) and
whose columns and values correspond converts exactly to element-wise
classification of its field values in original order, zipped back with the
identical keys into an `InlineTable`; the first failing field makes the whole
record fail with that error and no partial table. -/
theorem c6_record_inline_table (cols : List String) (vals : List Value)
    (sp : Span) (hnd : cols.Nodup) (hlen : cols.length = vals.length) :
    helper (.record cols vals sp) =
      match vals.mapM helper with
      | .ok ts => .ok (.inlineTable (cols.zip ts))
      | .error e => .error e := by
  have h := toml_record_eq_mapM cols vals [] hnd hlen (by simp)
  simp only [helper, h, Bind.bind, Except.bind]
  cases vals.mapM helper with
  | ok ts => simp
  | error e => simp

/-- C6 (witness): the record theorem at the concrete one-field record
`{a: 1}`. -/
theorem c6_record_inline_table_witness :
    helper (.record ["a"] [.int 1 Span.unknown] Span.unknown) =
      match [Value.int 1 Span.unknown].mapM helper with
      | .ok ts => .ok (.inlineTable (["a"].zip ts))
      | .error e => .error e :=
  c6_record_inline_table ["a"] [.int 1 Span.unknown] Span.unknown
    (by simp) (by simp)

/-- C7: nested Block, Nothing, CustomOpaque and Range values never fail and
convert to exactly the placeholder strings `"<Block>"`, `"<Nothing>"`,
`"<Custom Value>"` and `"<Range>"`. -/
theorem c7_placeholder_strings (bid cid rid : Nat) (sp : Span) :
    helper (.block bid sp) = .ok (.string "<Block>")
  ∧ helper (.nothing sp) = .ok (.string "<Nothing>")
  ∧ helper (.custom cid sp) = .ok (.string "<Custom Value>")
  ∧ helper (.range rid sp) = .ok (.string "<Range>") := by
  refine ⟨?_, ?_, ?_, ?_⟩ <;> simp [helper]

/-- C8: a Binary value converts to an Array of Integers, one per byte in
original order; every such integer lies in `[0, 255]` since bytes are `u8`;
and `Binary([1,2,3])` inside a record field yields the array `[1,2,3]` for
that field. -/
theorem c8_binary_bytes (bs : List (Fin 256)) (sp : Span) :
    helper (.binary bs sp) =
      .ok (.array (bs.map fun b => .integer ((b.val : Int))))
  ∧ (∀ b : Fin 256, 0 ≤ ((b.val : Int)) ∧ ((b.val : Int)) ≤ 255)
  ∧ helper (.record ["k"] [.binary [1, 2, 3] sp] sp) =
      .ok (.inlineTable [("k", .array [.integer 1, .integer 2, .integer 3])]) := by
  refine ⟨?_, ?_, ?_⟩
  · simp [helper]
  · intro b
    have hlt := b.isLt
    omega
  · simp [helper, toml_record, insertKV, Bind.bind, Except.bind]
    decide

/-- C9: `toml_into_pipeline_data` always returns `Ok`; when the document
value has no string rendering (`as_str` is `None`) the `CantConvert` failure
is embedded as a `Value::Error` inside the success-channel pipeline data, not
returned through `Err`. -/
theorem c9_pipeline_data_always_ok :
    (∀ (tv : TomlValue) (ty : String) (sp : Span),
       ∃ pd, toml_into_pipeline_data tv ty sp = .ok pd)
  ∧ (∀ (tv : TomlValue) (ty : String) (sp : Span), tv.as_str = none →
       toml_into_pipeline_data tv ty sp =
         .ok (.error (.cantConvert "TOML" ty sp))) := by
  constructor
  · intro tv ty sp
    unfold toml_into_pipeline_data
    cases tv.as_str with
    | some s => exact ⟨.string s sp, rfl⟩
    | none => exact ⟨.error (.cantConvert "TOML" ty sp), rfl⟩
  · intro tv ty sp h
    simp [toml_into_pipeline_data, h]

/-- C9 (witness): the delivery theorem at the concrete non-string document
value `[]` (an empty array), whose `as_str` is `None`. -/
theorem c9_pipeline_data_always_ok_witness :
    toml_into_pipeline_data (.array []) "list" Span.unknown =
      .ok (.error (.cantConvert "TOML" "list" Span.unknown)) :=
  c9_pipeline_data_always_ok.2 (.array []) "list" Span.unknown rfl

/-- C10: a root empty List fails the gate's head-record slice pattern and is
rejected with the `UnsupportedInput` shape error. -/
theorem c10_empty_list_rejected (p : String → Option String) (sp : Span) :
    value_to_toml_value p (.list [] sp) =
      .err (.unsupportedInput
        "Expected a table with TOML-compatible structure from pipeline" sp) := by
  simp [value_to_toml_value]

end ToToml
